import Mathlib

/-! Shallow embedding of the swingmusic heuristic reconciliation core:
the m3u playlist importer (app/utils/m3u_importer.py) and the
recently-added aggregator (app/lib/home/recentlyadded.py), together with
theorems settling the specification's claims about them.

Machine strings are embedded as Lean strings, worked on through their
character lists so that every operation is kernel-executable.  The
external Library Index (SQLite track methods, album/artist stores) is
modelled as an explicit environment of lookup functions, matching the
read-only interface the spec describes in section 6. -/

namespace SwingMusic

/-- Boolean test that the first list is a prefix of the second, comparing
characters by decidable equality. -/
def startsWithL : List Char → List Char → Bool
  | [], _ => true
  | _ :: _, [] => false
  | a :: as, b :: bs => a == b && startsWithL as bs

/-- Python's substring containment test (the `in` operator on strings):
the needle occurs contiguously somewhere in the haystack. -/
def containsSub (needle : List Char) : List Char → Bool
  | [] => startsWithL needle []
  | c :: cs => startsWithL needle (c :: cs) || containsSub needle cs

/-- Worker for `pySplit`: scans the text left to right, cutting at each
leftmost occurrence of the (nonempty) separator, like Python str.split.
While `skip` is positive the scan is inside an already matched separator
and swallows characters, so cuts never overlap. -/
def splitOnAux (sep : List Char) (skip : Nat) (cur : List Char) :
    List Char → List (List Char)
  | [] => [cur.reverse]
  | c :: cs =>
    match skip with
    | n + 1 => splitOnAux sep n cur cs
    | 0 =>
      if startsWithL sep (c :: cs) then
        cur.reverse :: splitOnAux sep (sep.length - 1) [] cs
      else
        splitOnAux sep 0 (c :: cur) cs

/-- Python str.split with an explicit nonempty separator: non-overlapping
leftmost-first cuts.  An empty separator returns the string whole (Python
would raise there; the program only splits on fixed nonempty strings). -/
def pySplit (sep : String) (s : String) : List String :=
  match sep.data with
  | [] => [s]
  | _ :: _ => (splitOnAux sep.data 0 [] s.data).map (fun l => ⟨l⟩)

/-- Python str.join with the given separator. -/
def pyJoin (sep : String) : List String → String
  | [] => ""
  | [x] => x
  | x :: xs => x ++ sep ++ pyJoin sep xs

/-- ASCII code point of a character after Python str.lower, restricted to
the ASCII range the program's data uses. -/
def lowerNat (c : Char) : Nat :=
  if 65 ≤ c.toNat && c.toNat ≤ 90 then c.toNat + 32 else c.toNat

/-- Comparison key of a string lowered by Python str.lower: two strings
are equal after lowering exactly when their keys are equal. -/
def lowerKey (s : String) : List Nat := s.data.map lowerNat

/-- Numeric value of a digit string, the effect of Python int() on the
strings captured by the regex group `\d+`. -/
def digitsVal (l : List Char) : Nat :=
  l.foldl (fun n c => 10 * n + (c.toNat - 48)) 0

/-- Python int() applied to a captured duration string. -/
def pyInt (s : String) : Int := digitsVal s.data

/-- Lexicographic order on character code points, the order Python uses
when comparing the strings this program sorts by. -/
def strLeB : List Char → List Char → Bool
  | [], _ => true
  | _ :: _, [] => false
  | a :: as, b :: bs =>
    if a.toNat = b.toNat then strLeB as bs else decide (a.toNat < b.toNat)

namespace M3U

/-- The per-entry dict built by parse_tracks: duration, artist and title are
mandatory captures, file_path is optional, file_exists is always set False. -/
structure TrackEntry where
  duration : String
  artist : String
  title : String
  file_path : Option String
  file_exists : Bool
deriving DecidableEq

/-- ASCII digit test, the regex class `\d` on the program's data. -/
def isDigitChar (c : Char) : Bool := 48 ≤ c.toNat && c.toNat ≤ 57

/-- Characters of the current line: the regex `.` does not match a newline,
so every `.`-built group lives inside the text up to the next newline. -/
def firstLineChars (l : List Char) : List Char :=
  l.takeWhile (fun c => !(c == '\n'))

/-- Remainder after the first newline, when one exists: where the regex
literal `\n` sends the match. -/
def afterFirstLine (l : List Char) : Option (List Char) :=
  match l.dropWhile (fun c => !(c == '\n')) with
  | [] => none
  | _ :: rest => some rest

/-- Lazy-artist split `(?P<artist>.+?) - (?P<title>.+)` of one line: the
earliest occurrence of the literal " - " preceded by a nonempty artist and
followed by a nonempty remainder wins, exactly the backtracking order of a
lazy group followed by a greedy one. -/
def findDashSplit (pre : List Char) : List Char → Option (List Char × List Char)
  | [] => none
  | c :: cs =>
    if c == ' ' && startsWithL ['-', ' '] cs && !pre.isEmpty && !(cs.drop 2).isEmpty
    then some (pre.reverse, cs.drop 2)
    else findDashSplit (c :: pre) cs

/-- re.match of the first default pattern
`(?P<duration>\d+),(?P<artist>.+?) - (?P<title>.+)\n(?P<file_path>.+)`:
a maximal digit run, a comma, the lazy dash split of the rest of the line,
then a newline followed by a nonempty second line as the file path. -/
def matchPattern1 (l : List Char) :
    Option (List Char × List Char × List Char × List Char) :=
  let d := l.takeWhile isDigitChar
  if d.isEmpty then none
  else
    match l.dropWhile isDigitChar with
    | ',' :: rest =>
      match findDashSplit [] (firstLineChars rest) with
      | none => none
      | some (a, t) =>
        match afterFirstLine rest with
        | none => none
        | some l2 =>
          let fp := firstLineChars l2
          if fp.isEmpty then none else some (d, a, t, fp)
    | _ => none

/-- re.match of the second default pattern
`(?P<duration>\d+),(?P<artist>.+?) - (?P<title>.+)`: as the first pattern
but without the file-path line. -/
def matchPattern2 (l : List Char) : Option (List Char × List Char × List Char) :=
  let d := l.takeWhile isDigitChar
  if d.isEmpty then none
  else
    match l.dropWhile isDigitChar with
    | ',' :: rest =>
      match findDashSplit [] (firstLineChars rest) with
      | none => none
      | some (a, t) => some (d, a, t)
    | _ => none

/-- The inner pattern loop of parse_tracks: try the two default patterns in
order, build the track dict from the first match, with file_path captured
opportunistically and file_exists initialised False. -/
def parseChunk (chunk : List Char) : Option TrackEntry :=
  match matchPattern1 chunk with
  | some (d, a, t, fp) =>
    some ⟨⟨d⟩, ⟨a⟩, ⟨t⟩, some ⟨fp⟩, false⟩
  | none =>
    match matchPattern2 chunk with
    | some (d, a, t) => some ⟨⟨d⟩, ⟨a⟩, ⟨t⟩, none, false⟩
    | none => none

/-- One iteration of the parse_tracks loop body: a chunk containing the
header marker "#EXTM3U" anywhere is skipped before pattern matching,
otherwise the pattern loop runs on it. -/
def lineResult (line : String) : Option TrackEntry :=
  if containsSub "#EXTM3U".data line.data then none
  else parseChunk line.data

/-- Accumulation step of the parse_tracks loop: append the chunk's track
when one was produced. -/
def parseStep (acc : List TrackEntry) (line : String) : List TrackEntry :=
  match lineResult line with
  | some tr => acc ++ [tr]
  | none => acc

/-- parse_tracks: split the document on the per-entry marker, process every
chunk, and return None when no chunk produced a track. -/
def parse_tracks (m3u_file_string : String) : Option (List TrackEntry) :=
  let tracks := (pySplit "\n#EXTINF:" m3u_file_string).foldl parseStep []
  if tracks.isEmpty then none else some tracks

/-- An artist record of the Library Index, as seen through the matcher. -/
structure LibArtist where
  name : String
deriving DecidableEq

/-- A track record of the Library Index, restricted to the fields the
matcher reads: its artists and its duration. -/
structure DBTrack where
  artists : List LibArtist
  duration : Int
deriving DecidableEq

/-- Read-only Library Index interface consumed by the matcher. -/
structure MatchEnv where
  get_tracks_by_filename : String → List DBTrack
  get_tracks_by_title : String → List DBTrack

/-- Modelled from the spec: get_path_depth lives in app/utils/filesystem.py,
which is not part of the sources here; section 4.5 of the spec says the
matcher derives "the bare filename (path stripped, extension stripped)"
from the entry's file path.  Path components are split on the "/"
separator. -/
def get_path_depth (p : String) : List String := pySplit "/" p

/-- Root part of os.path.splitext (Python standard library, external): the
name up to its last dot, or the whole name when it has no dot.  The
hidden-file corner case of the stdlib is not exercised by this program. -/
def splitextRoot (s : String) : String :=
  match s.data.reverse.dropWhile (fun c => !(c == '.')) with
  | [] => s
  | _ :: rest => ⟨rest.reverse⟩

/-- Case-insensitive artist gate shared by both matching stages:
`track.artist.lower() in [artist.name.lower() for artist in result.artists]`. -/
def artistGate (entryArtist : String) (r : DBTrack) : Bool :=
  decide (lowerKey entryArtist ∈ r.artists.map (fun a => lowerKey a.name))

/-- Duration gate shared by both matching stages:
`abs(int(track.duration) - int(result.duration)) <= 10`. -/
def durationGate (entryDuration : String) (r : DBTrack) : Bool :=
  decide ((pyInt entryDuration - r.duration).natAbs ≤ 10)

/-- Second component of the pair returned by match_track_filename: Python
None when the entry has no file path, the matched track on success, or the
list of artist-matching candidates that failed the duration gate. -/
inductive FPayload where
  | nonePayload
  | matchedTrack (t : DBTrack)
  | candidates (l : List DBTrack)
deriving DecidableEq

/-- Candidate loop of match_track_filename: the first artist-matching
candidate within 10 seconds is returned as a confirmed match; artist
matches outside the tolerance are appended to filter_results. -/
def mtfLoop (track : TrackEntry) (acc : List DBTrack) :
    List DBTrack → Bool × FPayload
  | [] => (false, .candidates acc)
  | r :: rs =>
    if artistGate track.artist r then
      if durationGate track.duration r then (true, .matchedTrack r)
      else mtfLoop track (acc ++ [r]) rs
    else mtfLoop track acc rs

/-- match_track_filename: without a file path the stage reports (False,
None); otherwise the bare filename keys a Library Index lookup and the
candidate loop runs over the results. -/
def match_track_filename (env : MatchEnv) (track : TrackEntry) :
    Bool × FPayload :=
  match track.file_path with
  | none => (false, .nonePayload)
  | some fp =>
    let file_name := splitextRoot ((get_path_depth fp).getLastD "")
    mtfLoop track [] (env.get_tracks_by_filename file_name)

/-- Value of match_track: Python None, a single resolved track, or a list
of tracks (the filename-stage candidate list, which the title stage's
return statement lets escape through the variable result_track). -/
inductive MatchResult where
  | noMatch
  | matched (t : DBTrack)
  | matchedList (l : List DBTrack)
deriving DecidableEq

/-- The variable result_track of match_track read as a return value. -/
def payloadResult : FPayload → MatchResult
  | .nonePayload => .noMatch
  | .matchedTrack t => .matched t
  | .candidates l => .matchedList l

/-- Title-stage loop of match_track.  Faithful to source line 99: on the
first artist-matching candidate, when the duration gate passes the
function returns result_track, the residue of the filename stage, not the
candidate r of the current loop. -/
def mtTitleLoop (track : TrackEntry) (result_track : FPayload) :
    List DBTrack → MatchResult
  | [] => .noMatch
  | r :: rs =>
    if artistGate track.artist r then
      if durationGate track.duration r then payloadResult result_track
      else .noMatch
    else mtTitleLoop track result_track rs

/-- match_track: the filename stage first, its confirmed match returned
directly; otherwise the title stage runs over the title lookup. -/
def match_track (env : MatchEnv) (track : TrackEntry) : MatchResult :=
  let mr := match_track_filename env track
  if mr.1 then payloadResult mr.2
  else mtTitleLoop track mr.2 (env.get_tracks_by_title track.title)

end M3U

namespace Recent

/-- A track record as read by the recently-added pipeline: its folder, its
album hash, its separator-joined artist hashes, and its two timestamps.
The presentation payload of serialize_track is the record itself. -/
structure Track where
  folder : String
  albumhash : String
  artist_hashes : String
  created_date : Int
  last_mod : Int
deriving DecidableEq

/-- A presentation item of the recently-added feed, one dict of the Python
code per constructor.  Serialized album and artist payloads are kept as the
opaque strings the external serializers produce. -/
inductive RItem where
  | track (t : Track) (help_text : String) (time : Option String)
  | album (payload : String) (help_text : String) (time : String)
  | artist (payload : String) (trackcount : Nat) (help_text : String) (time : String)
  | folder (path : String) (count : Nat) (help_text : String) (time : String)
deriving DecidableEq

/-- Read-only collaborators of the classifier and aggregator: the track
store snapshot, hash lookups into the album and artist stores, and the
external timestamp_to_time_passed renderer. -/
structure Env where
  tracks : List Track
  get_album_by_hash : String → Option String
  get_artist_by_hash : String → Option String
  time_passed : Int → String

/-- Python `items.count(x)`. -/
def countOcc (x : String) (items : List String) : Nat := items.count x

/-- Python `max(items, key=items.count)`: the first element attaining the
maximal multiplicity, since max only replaces on a strictly larger key. -/
def most_common (items : List String) : String :=
  items.foldl
    (fun best x => if countOcc x items > countOcc best items then x else best)
    (items.headD "")

/-- calc_based_on_percent: the majority-vote core.  The docstring of the
source speaks of 85 percent but the comparison is `count / total >= 0.7`;
over the integers in play that float comparison is the rational test
`10 * count >= 7 * total`, which is how it is embedded. -/
def calc_based_on_percent (items : List String) (total : Nat) :
    Bool × String × Nat :=
  let mc := most_common items
  let mcc := countOcc mc items
  (decide (7 * total ≤ 10 * mcc), mc, mcc)

/-- check_is_album_folder: vote on the tracks' album hashes. -/
def check_is_album_folder (tracks : List Track) : Bool × String × Nat :=
  calc_based_on_percent (tracks.map (fun t => t.albumhash)) tracks.length

/-- check_is_artist_folder: join every track's artist-hash string with "-",
split the result on "-" again, and vote on the flattened pool, the total
still being the number of tracks. -/
def check_is_artist_folder (tracks : List Track) : Bool × String × Nat :=
  calc_based_on_percent
    (pySplit "-" (pyJoin "-" (tracks.map (fun t => t.artist_hashes))))
    tracks.length

/-- check_is_new_album: no track of the store both predates the timestamp
and carries the album hash. -/
def check_is_new_album (env : Env) (albumhash : String) (timestamp : Int) : Bool :=
  !(env.tracks.any
    (fun t => decide (t.last_mod < timestamp) && t.albumhash == albumhash))

/-- check_is_new_artist: no track of the store both predates the timestamp
and contains the artist hash; the Python membership test
`artisthash in t.artist_hashes` is substring containment on the joined
hash string. -/
def check_is_new_artist (env : Env) (artisthash : String) (timestamp : Int) : Bool :=
  !(env.tracks.any
    (fun t => decide (t.last_mod < timestamp) &&
      containsSub artisthash.data t.artist_hashes.data))

/-- create_track: a recently added track entry with help text NEW TRACK and
no time stamped yet. -/
def create_track (t : Track) : RItem := .track t "NEW TRACK" none

/-- Value of check_is_track_folder: Python False for groups of three or
more tracks, otherwise one created track entry per track. -/
inductive TFRes where
  | notTF
  | entries (l : List RItem)
deriving DecidableEq

/-- check_is_track_folder: a group of three or more tracks is more of a
playlist and is not a track folder. -/
def check_is_track_folder (tracks : List Track) : TFRes :=
  if 3 ≤ tracks.length then .notTF
  else .entries (tracks.map create_track)

/-- Value of check_folder_type: Python None, a single item dict, or the
list of entries of the track-folder case. -/
inductive FTResult where
  | noneRes
  | one (item : RItem)
  | many (items : List RItem)
deriving DecidableEq

/-- A folder group: the folder path, its tracks, and the representative
timestamp. -/
structure Group where
  folder : String
  tracks : List Track
  time : Int
deriving DecidableEq

/-- check_folder_type: single track, else album vote, else artist vote,
else the track-folder test, else a generic folder item.  A hash whose
store lookup fails yields None for the whole group; an empty entry list is
falsy in Python, so it too falls back to the generic folder item. -/
def check_folder_type (env : Env) (g : Group) : FTResult :=
  match g.tracks with
  | [t] => .one (.track t "NEW TRACK" (some (env.time_passed g.time)))
  | tracks =>
    let albumVote := check_is_album_folder tracks
    if albumVote.1 then
      match env.get_album_by_hash albumVote.2.1 with
      | none => .noneRes
      | some albumPayload =>
        .one (.album albumPayload
          (if check_is_new_album env albumVote.2.1 g.time then "NEW ALBUM"
           else "NEW TRACKS")
          (env.time_passed g.time))
    else
      let artistVote := check_is_artist_folder tracks
      if artistVote.1 then
        match env.get_artist_by_hash artistVote.2.1 with
        | none => .noneRes
        | some artistPayload =>
          .one (.artist artistPayload artistVote.2.2
            (if check_is_new_artist env artistVote.2.1 g.time then "NEW ARTIST"
             else "NEW MUSIC")
            (env.time_passed g.time))
      else
        match check_is_track_folder tracks with
        | .entries l =>
          if l.isEmpty then
            .one (.folder g.folder tracks.length "NEW MUSIC" (env.time_passed g.time))
          else .many l
        | .notTF =>
          .one (.folder g.folder tracks.length "NEW MUSIC" (env.time_passed g.time))

/-- Sort key of the grouping pass: folder path, in Python's string order. -/
def folderLe (a b : Track) : Prop := strLeB a.folder.data b.folder.data = true

instance : DecidableRel folderLe := fun a b =>
  inferInstanceAs (Decidable (strLeB a.folder.data b.folder.data = true))

/-- Sort key inside a group: last-modified timestamp, descending. -/
def lastModGe (a b : Track) : Prop := b.last_mod ≤ a.last_mod

instance : DecidableRel lastModGe := fun a b =>
  inferInstanceAs (Decidable (b.last_mod ≤ a.last_mod))

/-- Sort key of the group list: representative timestamp, descending. -/
def timeGe (a b : Group) : Prop := b.time ≤ a.time

instance : DecidableRel timeGe := fun a b =>
  inferInstanceAs (Decidable (b.time ≤ a.time))

/-- Sort key of the aggregator's first pass: creation timestamp. -/
def createdLe (a b : Track) : Prop := a.created_date ≤ b.created_date

instance : DecidableRel createdLe := fun a b =>
  inferInstanceAs (Decidable (a.created_date ≤ b.created_date))

/-- Maximal runs of tracks sharing a folder, as itertools.groupby yields
them on the folder-sorted list: adjacent equal keys form one group. -/
def groupRuns : List Track → List (String × List Track)
  | [] => []
  | t :: ts =>
    match groupRuns ts with
    | [] => [(t.folder, [t])]
    | (k, run) :: rest =>
      if t.folder = k then (k, t :: run) :: rest
      else (t.folder, [t]) :: (k, run) :: rest

/-- Representative timestamp of a run already sorted by last_mod
descending: the first element's last_mod (runs are never empty). -/
def runTime : List Track → Int
  | [] => 0
  | t :: _ => t.last_mod

/-- Builds one folder group from a run: the run is sorted by last-modified
descending and stamped with its first (largest) timestamp. -/
def mkGroup (folder : String) (ts : List Track) : Group :=
  let sortedTs := List.insertionSort lastModGe ts
  ⟨folder, sortedTs, runTime sortedTs⟩

/-- group_track_by_folders: sort by folder, group adjacent equal folders,
sort each group by last-modified descending, and sort the groups by their
representative timestamps descending.  Python's sorted is a stable sort;
a stable sort's output is determined by the comparator alone, so the
stable insertionSort is extensionally the same transform. -/
def group_track_by_folders (tracks : List Track) : List Group :=
  let sorted1 := List.insertionSort folderLe tracks
  let groups := (groupRuns sorted1).map (fun p => mkGroup p.1 p.2)
  List.insertionSort timeGe groups

/-- Accumulator loop of get_recent_items.  A None result is skipped; a
single item is appended unless an identical item is already present; a
list result is concatenated (a Python list never equals any dict already
accumulated, and an empty list is falsy and skipped); after a non-skipped
item the loop stops once the accumulator has reached limit items. -/
def recentLoop (env : Env) (limit : Nat) : List Group → List RItem → List RItem
  | [], acc => acc
  | g :: gs, acc =>
    match check_folder_type env g with
    | .noneRes => recentLoop env limit gs acc
    | .one x =>
      if x ∈ acc then
        if limit ≤ acc.length then acc else recentLoop env limit gs acc
      else
        if limit ≤ (acc ++ [x]).length then acc ++ [x]
        else recentLoop env limit gs (acc ++ [x])
    | .many xs =>
      if xs.isEmpty then recentLoop env limit gs acc
      else
        if limit ≤ (acc ++ xs).length then acc ++ xs
        else recentLoop env limit gs (acc ++ xs)

/-- get_recent_items: sort the store by creation date, group by folders,
classify each group in order, and accumulate. -/
def get_recent_items (env : Env) (limit : Nat) : List RItem :=
  recentLoop env limit
    (group_track_by_folders (List.insertionSort createdLe env.tracks)) []

/-- The module-level state of recentlyadded.py: the sets older_albums and
older_artists defined at lines 17 and 18. -/
structure ModuleState where
  older_albums : List String
  older_artists : List String
deriving DecidableEq

/-- get_recent_items with the module state threaded explicitly: the
function neither reads nor writes the two sets (they are defined and then
never used anywhere in the module), so each call recomputes its output
from the store alone and passes the state through untouched. -/
def get_recent_items_st (st : ModuleState) (env : Env) (limit : Nat) :
    List RItem × ModuleState :=
  (get_recent_items env limit, st)

end Recent

/-! Concrete fixtures used by the witnesses and counterexamples below. -/

/-- Fixture for C1: a parsed entry with duration 419 and no file path. -/
def entry419 : M3U.TrackEntry :=
  ⟨"419", "Alice in Chains", "Rotten Apple", none, false⟩

/-- Fixture for C1: the same entry carrying a file path. -/
def entry419fp : M3U.TrackEntry :=
  ⟨"419", "Alice in Chains", "Rotten Apple", some "music/Rotten Apple.mp3", false⟩

/-- Fixture for C1: an index track at duration 415, four seconds off. -/
def rotten415 : M3U.DBTrack := ⟨[⟨"Alice in Chains"⟩], 415⟩

/-- Fixture for C1: an index track at duration 600, far outside tolerance. -/
def far600 : M3U.DBTrack := ⟨[⟨"Alice in Chains"⟩], 600⟩

/-- Fixture for C1: an index where only the title lookup is populated. -/
def envTitleOnly : M3U.MatchEnv :=
  ⟨fun _ => [], fun t => if t = "Rotten Apple" then [rotten415] else []⟩

/-- Fixture for C1: an index where the filename lookup yields the far
track and the title lookup the close one. -/
def envTwoStage : M3U.MatchEnv :=
  ⟨fun f => if f = "Rotten Apple" then [far600] else [],
   fun t => if t = "Rotten Apple" then [rotten415] else []⟩

/-- Fixture for C2: a store holding a single track. -/
def envOneTrack : Recent.Env :=
  ⟨[⟨"f", "al1", "h1", 1, 10⟩], fun _ => none, fun _ => none, fun _ => "just now"⟩

/-- Fixture for C2: an empty store. -/
def envEmptyTracks : Recent.Env := ⟨[], fun _ => none, fun _ => none, fun _ => ""⟩

/-- Fixture for C3: an index resolving album hash A. -/
def envAlbumA : Recent.Env :=
  ⟨[], fun h => if h = "A" then some "Album A" else none, fun _ => none,
   fun _ => "ago"⟩

/-- Fixture for C3: ten tracks of one folder, seven sharing album hash A,
an album-hash ratio of exactly 0.70. -/
def groupTen : Recent.Group := ⟨"f",
  [⟨"f", "A", "h1", 1, 1⟩, ⟨"f", "A", "h2", 2, 2⟩, ⟨"f", "A", "h3", 3, 3⟩,
   ⟨"f", "A", "h4", 4, 4⟩, ⟨"f", "A", "h5", 5, 5⟩, ⟨"f", "A", "h6", 6, 6⟩,
   ⟨"f", "A", "h7", 7, 7⟩, ⟨"f", "B", "h8", 8, 8⟩, ⟨"f", "C", "h9", 9, 9⟩,
   ⟨"f", "D", "h10", 10, 10⟩], 10⟩

/-- Fixture for C3: three tracks, two sharing album hash A, a ratio of
about 0.67, below the threshold. -/
def groupThree : Recent.Group := ⟨"f",
  [⟨"f", "A", "h1", 1, 1⟩, ⟨"f", "A", "h2", 2, 2⟩, ⟨"f", "B", "h3", 3, 3⟩], 3⟩

/-- Fixture for C4: an index resolving nothing. -/
def envNoLookups : Recent.Env := ⟨[], fun _ => none, fun _ => none, fun _ => "ago"⟩

/-- Fixture for C4: two tracks sharing the unresolvable album hash A. -/
def groupSharedAlbum : Recent.Group :=
  ⟨"f", [⟨"f", "A", "h1", 1, 1⟩, ⟨"f", "A", "h2", 2, 2⟩], 2⟩

/-- Fixture for C6: an index resolving nothing, rendering times as ago. -/
def envPlainAgo : Recent.Env := ⟨[], fun _ => none, fun _ => none, fun _ => "ago"⟩

/-- Fixture for C6: three tracks with distinct album and artist hashes,
so neither vote reaches the threshold. -/
def groupMixed3 : Recent.Group := ⟨"f",
  [⟨"f", "A1", "x1", 1, 1⟩, ⟨"f", "A2", "x2", 2, 2⟩, ⟨"f", "A3", "x3", 3, 3⟩], 3⟩

/-- Fixture for C5: two tracks in distinct folders. -/
def twoTracks : List Recent.Track :=
  [⟨"f", "a1", "h1", 1, 10⟩, ⟨"g", "a2", "h2", 2, 20⟩]

/-- Fixture for C8: a small store for the repeated-run witness. -/
def envRepeat : Recent.Env :=
  ⟨[⟨"f", "alb", "ha", 1, 10⟩], fun _ => none, fun _ => none, fun _ => "now"⟩

/-! Theorems settling the claims. -/

/-- C7: parse_tracks on the spec's example playlist returns exactly one
entry with duration "419" (the digit string whose value is 419), artist
"Alice in Chains", title "Rotten Apple", the stated file path, and
file_exists false. -/
theorem C7_parse_example :
    M3U.parse_tracks
        "#EXTM3U\n#EXTINF:419,Alice in Chains - Rotten Apple\nAlice in Chains_Jar of Flies_01_Rotten Apple.mp3"
      = some [⟨"419", "Alice in Chains", "Rotten Apple",
               some "Alice in Chains_Jar of Flies_01_Rotten Apple.mp3", false⟩]
    ∧ digitsVal "419".data = 419 := by
  decide

/-- C9: when every chunk of the split input is skipped or unmatched,
parse_tracks returns none (Python None), never an empty list; a some
result is always nonempty, so callers must handle the absent result as a
case of its own. -/
theorem C9_no_entry_gives_none :
    (∀ s : String,
      (∀ line ∈ pySplit "\n#EXTINF:" s, M3U.lineResult line = none) →
      M3U.parse_tracks s = none)
    ∧ ∀ (s : String) (l : List M3U.TrackEntry),
        M3U.parse_tracks s = some l → l ≠ [] := by
  have hfold : ∀ (lines : List String) (acc : List M3U.TrackEntry),
      (∀ line ∈ lines, M3U.lineResult line = none) →
      lines.foldl M3U.parseStep acc = acc := by
    intro lines
    induction lines with
    | nil => intro acc _; rfl
    | cons a as ih =>
      intro acc h
      have ha := h a (List.mem_cons_self a as)
      simp only [List.foldl_cons, M3U.parseStep, ha]
      exact ih acc (fun x hx => h x (List.mem_cons_of_mem a hx))
  constructor
  · intro s h
    simp only [M3U.parse_tracks]
    rw [hfold _ [] h]
    rfl
  · intro s l h
    simp only [M3U.parse_tracks] at h
    split at h
    · exact absurd h (by simp)
    · next hne =>
      injection h with h2
      subst h2
      simpa using hne

/-- C9 witness: the empty document and the header-only document both make
every chunk fail, and parse_tracks returns none on them. -/
theorem C9_witness :
    M3U.parse_tracks "" = none ∧ M3U.parse_tracks "#EXTM3U" = none :=
  ⟨C9_no_entry_gives_none.1 "" (by decide),
   C9_no_entry_gives_none.1 "#EXTM3U" (by decide)⟩

/-- C10: any chunk containing the substring "#EXTM3U" anywhere is dropped
before pattern matching; in particular a chunk that the first default
pattern would parse into a complete entry is discarded when its title line
mentions "#EXTM3U", and the whole document then parses to none. -/
theorem C10_header_marker_drops_chunk :
    (∀ line : String, containsSub "#EXTM3U".data line.data = true →
      M3U.lineResult line = none)
    ∧ M3U.parseChunk "419,My #EXTM3U Band - Song\nfile.mp3".data
        = some ⟨"419", "My #EXTM3U Band", "Song", some "file.mp3", false⟩
    ∧ M3U.parse_tracks "#EXTM3U\n#EXTINF:419,My #EXTM3U Band - Song\nfile.mp3" = none := by
  refine ⟨?_, by decide, by decide⟩
  intro line h
  simp [M3U.lineResult, h]

/-- C10 witness: the otherwise well-formed chunk whose artist mentions the
header marker is dropped by the chunk step. -/
theorem C10_witness :
    M3U.lineResult "419,My #EXTM3U Band - Song\nfile.mp3" = none :=
  C10_header_marker_drops_chunk.1 _ (by decide)

/-- C1: the title stage of match_track does not return the title-stage
candidate.  At line 99 the source returns the variable result_track, the
residue of the filename stage, where the loop variable result was meant:
with no file path the stage returns Python None even though the first
title-matching, artist-matching candidate sits four seconds away; with a
file path whose filename lookup failed only the duration gate, the stage
returns the stage-one candidate list instead of the title-stage match. -/
theorem C1_title_stage_returns_residue :
    M3U.match_track envTitleOnly entry419 = .noMatch
    ∧ M3U.match_track envTitleOnly entry419 ≠ .matched rotten415
    ∧ M3U.match_track envTwoStage entry419fp = .matchedList [far600]
    ∧ M3U.match_track envTwoStage entry419fp ≠ .matched rotten415 := by
  decide

/-- C8: get_recent_items with the module state threaded explicitly is
idempotent and stateless: a second run on the unchanged store returns the
identical ordered output, and the module-level sets pass through every
call unchanged. -/
theorem C8_idempotent_stateless (st : Recent.ModuleState) (env : Recent.Env)
    (limit : Nat) :
    (Recent.get_recent_items_st st env limit).1
      = (Recent.get_recent_items_st
          (Recent.get_recent_items_st st env limit).2 env limit).1
    ∧ (Recent.get_recent_items_st st env limit).2 = st :=
  ⟨rfl, rfl⟩

/-- C8 witness: on a concrete one-track store with empty module state, two
consecutive runs agree and the state comes back unchanged. -/
theorem C8_witness :
    (Recent.get_recent_items_st ⟨[], []⟩ envRepeat 7).1
      = (Recent.get_recent_items_st
          (Recent.get_recent_items_st ⟨[], []⟩ envRepeat 7).2 envRepeat 7).1
    ∧ (Recent.get_recent_items_st ⟨[], []⟩ envRepeat 7).2
        = (⟨[], []⟩ : Recent.ModuleState) :=
  C8_idempotent_stateless ⟨[], []⟩ envRepeat 7

/-- Unfolding of check_folder_type on a group of at least two tracks: the
single-track arm is skipped and the vote cascade runs. -/
theorem check_folder_type_eq_cons2 (env : Recent.Env) (gf : String)
    (t1 t2 : Recent.Track) (ts : List Recent.Track) (gt : Int) :
    Recent.check_folder_type env ⟨gf, t1 :: t2 :: ts, gt⟩ =
      (if (Recent.check_is_album_folder (t1 :: t2 :: ts)).1 then
        match env.get_album_by_hash (Recent.check_is_album_folder (t1 :: t2 :: ts)).2.1 with
        | none => .noneRes
        | some albumPayload =>
          .one (.album albumPayload
            (if Recent.check_is_new_album env
                (Recent.check_is_album_folder (t1 :: t2 :: ts)).2.1 gt
             then "NEW ALBUM" else "NEW TRACKS")
            (env.time_passed gt))
      else if (Recent.check_is_artist_folder (t1 :: t2 :: ts)).1 then
        match env.get_artist_by_hash (Recent.check_is_artist_folder (t1 :: t2 :: ts)).2.1 with
        | none => .noneRes
        | some artistPayload =>
          .one (.artist artistPayload
            (Recent.check_is_artist_folder (t1 :: t2 :: ts)).2.2
            (if Recent.check_is_new_artist env
                (Recent.check_is_artist_folder (t1 :: t2 :: ts)).2.1 gt
             then "NEW ARTIST" else "NEW MUSIC")
            (env.time_passed gt))
      else match Recent.check_is_track_folder (t1 :: t2 :: ts) with
        | .entries l =>
          if l.isEmpty then
            .one (.folder gf (t1 :: t2 :: ts).length "NEW MUSIC" (env.time_passed gt))
          else .many l
        | .notTF =>
          .one (.folder gf (t1 :: t2 :: ts).length "NEW MUSIC" (env.time_passed gt))) :=
  rfl

/-- The album vote bit is by definition the decidted threshold test against
the vote's own count field. -/
theorem check_is_album_folder_fst (tracks : List Recent.Track) :
    (Recent.check_is_album_folder tracks).1
      = decide (7 * tracks.length ≤ 10 * (Recent.check_is_album_folder tracks).2.2) :=
  rfl

/-- C3: on a group of at least two tracks whose most frequent album hash
resolves in the album store, check_folder_type yields an Album item
exactly when the most frequent hash's count is at least 0.70 of the track
count (the rational reading of the float comparison `count/total >= 0.7`),
so a ratio of exactly 0.70 classifies as an album and a smaller one does
not. -/
theorem C3_album_iff_threshold (env : Recent.Env) (g : Recent.Group)
    (h2 : 2 ≤ g.tracks.length)
    (hres : (env.get_album_by_hash
      (Recent.check_is_album_folder g.tracks).2.1).isSome = true) :
    (∃ p h ti, Recent.check_folder_type env g = .one (.album p h ti)) ↔
      7 * g.tracks.length ≤ 10 * (Recent.check_is_album_folder g.tracks).2.2 := by
  obtain ⟨gf, gtr, gt⟩ := g
  dsimp only at h2 hres ⊢
  rcases gtr with _ | ⟨t1, _ | ⟨t2, ts⟩⟩
  · simp at h2
  · simp at h2
  rw [check_folder_type_eq_cons2]
  constructor
  · rintro ⟨p, h, ti, heq⟩
    by_contra hlt
    have hv : (Recent.check_is_album_folder (t1 :: t2 :: ts)).1 = false := by
      rw [check_is_album_folder_fst]
      exact decide_eq_false hlt
    rw [hv] at heq
    simp only [Bool.false_eq_true, if_false] at heq
    split at heq
    · split at heq
      · cases heq
      · simp at heq
    · split at heq
      · split at heq
        · simp at heq
        · cases heq
      · simp at heq
  · intro hle
    have hv : (Recent.check_is_album_folder (t1 :: t2 :: ts)).1 = true := by
      rw [check_is_album_folder_fst]
      exact decide_eq_true hle
    obtain ⟨q, hq⟩ := Option.isSome_iff_exists.mp hres
    simp only [hv, if_true, hq]
    exact ⟨q, _, _, rfl⟩

/-- C3 witness: the ten-track fixture at a ratio of exactly 0.70 yields an
Album item; the three-track fixture at a ratio of about 0.67 does not. -/
theorem C3_witness :
    (∃ p h ti, Recent.check_folder_type envAlbumA groupTen = .one (.album p h ti))
    ∧ ¬ (∃ p h ti,
        Recent.check_folder_type envAlbumA groupThree = .one (.album p h ti)) := by
  constructor
  · exact (C3_album_iff_threshold envAlbumA groupTen (by decide) (by decide)).mpr
      (by decide)
  · intro hex
    exact absurd
      ((C3_album_iff_threshold envAlbumA groupThree (by decide) (by decide)).mp hex)
      (by decide)

/-- C4: when a group of at least two tracks votes an album majority whose
hash the album store cannot resolve, or fails the album vote but votes an
artist majority whose hash the artist store cannot resolve, the classifier
returns None for the whole group, and the aggregator loop carries on with
the remaining groups as if the group were not there. -/
theorem C4_unresolved_hash_skipped (env : Recent.Env) (g : Recent.Group)
    (gs : List Recent.Group) (acc : List Recent.RItem) (limit : Nat)
    (h2 : 2 ≤ g.tracks.length)
    (hcase :
      ((Recent.check_is_album_folder g.tracks).1 = true ∧
        env.get_album_by_hash (Recent.check_is_album_folder g.tracks).2.1 = none) ∨
      ((Recent.check_is_album_folder g.tracks).1 = false ∧
        (Recent.check_is_artist_folder g.tracks).1 = true ∧
        env.get_artist_by_hash (Recent.check_is_artist_folder g.tracks).2.1 = none)) :
    Recent.check_folder_type env g = .noneRes ∧
    Recent.recentLoop env limit (g :: gs) acc = Recent.recentLoop env limit gs acc := by
  obtain ⟨gf, gtr, gt⟩ := g
  dsimp only at h2 hcase ⊢
  rcases gtr with _ | ⟨t1, _ | ⟨t2, ts⟩⟩
  · simp at h2
  · simp at h2
  have hnone : Recent.check_folder_type env ⟨gf, t1 :: t2 :: ts, gt⟩ = .noneRes := by
    rw [check_folder_type_eq_cons2]
    rcases hcase with ⟨hv, hl⟩ | ⟨hv, hv2, hl⟩
    · simp only [hv, if_true, hl]
    · simp only [hv, Bool.false_eq_true, if_false, hv2, if_true, hl]
  refine ⟨hnone, ?_⟩
  simp only [Recent.recentLoop, hnone]

/-- C4 witness: two tracks share album hash A, the store resolves nothing,
and the classifier and the loop both drop the group without failing. -/
theorem C4_witness :
    Recent.check_folder_type envNoLookups groupSharedAlbum = .noneRes ∧
    Recent.recentLoop envNoLookups 7 [groupSharedAlbum] []
      = Recent.recentLoop envNoLookups 7 [] [] :=
  C4_unresolved_hash_skipped envNoLookups groupSharedAlbum [] [] 7 (by decide)
    (Or.inl ⟨by decide, rfl⟩)

/-- C6: a group of three or more tracks failing both the album vote and
the artist vote classifies as a single generic Folder item whose count is
the number of tracks of the group. -/
theorem C6_no_majority_folder_result (env : Recent.Env) (g : Recent.Group)
    (h3 : 3 ≤ g.tracks.length)
    (halb : (Recent.check_is_album_folder g.tracks).1 = false)
    (hart : (Recent.check_is_artist_folder g.tracks).1 = false) :
    Recent.check_folder_type env g =
      .one (.folder g.folder g.tracks.length "NEW MUSIC"
        (env.time_passed g.time)) := by
  obtain ⟨gf, gtr, gt⟩ := g
  dsimp only at h3 halb hart ⊢
  rcases gtr with _ | ⟨t1, _ | ⟨t2, ts⟩⟩
  · simp at h3
  · simp at h3
  rw [check_folder_type_eq_cons2]
  have htf : Recent.check_is_track_folder (t1 :: t2 :: ts) = .notTF := by
    unfold Recent.check_is_track_folder
    rw [if_pos h3]
  simp only [halb, hart, Bool.false_eq_true, if_false, htf]

/-- C6 witness: three tracks with pairwise distinct album and artist
hashes classify as a Folder item counting three tracks. -/
theorem C6_witness :
    Recent.check_folder_type envPlainAgo groupMixed3 =
      .one (.folder "f" 3 "NEW MUSIC" "ago") :=
  C6_no_majority_folder_result envPlainAgo groupMixed3 (by decide) (by decide)
    (by decide)

/-- Unfolding of check_folder_type on an empty group: the album vote is
vacuously passed (zero is at least seventy percent of zero), so the result
is an album lookup on the empty-pool hash, never a list of entries. -/
theorem check_folder_type_eq_nil (env : Recent.Env) (gf : String) (gt : Int) :
    Recent.check_folder_type env ⟨gf, [], gt⟩ =
      match env.get_album_by_hash
          (Recent.check_is_album_folder ([] : List Recent.Track)).2.1 with
      | none => .noneRes
      | some albumPayload =>
        .one (.album albumPayload
          (if Recent.check_is_new_album env
              (Recent.check_is_album_folder ([] : List Recent.Track)).2.1 gt
           then "NEW ALBUM" else "NEW TRACKS")
          (env.time_passed gt)) := by
  rfl

/-- A list result of check_folder_type comes only from the track-folder
case, which fires below three tracks, so it carries at most two entries. -/
theorem check_folder_type_many_len (env : Recent.Env) (g : Recent.Group)
    (xs : List Recent.RItem)
    (h : Recent.check_folder_type env g = .many xs) : xs.length ≤ 2 := by
  obtain ⟨gf, gtr, gt⟩ := g
  rcases gtr with _ | ⟨t1, _ | ⟨t2, ts⟩⟩
  · rw [check_folder_type_eq_nil] at h
    split at h
    · cases h
    · cases h
  · cases h
  · rw [check_folder_type_eq_cons2] at h
    split at h
    · split at h
      · cases h
      · cases h
    · split at h
      · split at h
        · cases h
        · cases h
      · split at h
        · next l heq =>
          split at h
          · cases h
          · injection h with h2
            subst h2
            unfold Recent.check_is_track_folder at heq
            split at heq
            · cases heq
            · next hlen =>
              injection heq with h3
              subst h3
              simp only [List.length_map, List.length_cons] at hlen ⊢
              omega
        · cases h

/-- Bound on the aggregator loop: entered with fewer than max limit 1
accumulated items, it returns at most max limit 1 + 1 items, because a
group contributes at most two entries and the stop check runs only after
the contribution. -/
theorem recentLoop_length_le (env : Recent.Env) (limit : Nat) :
    ∀ (gs : List Recent.Group) (acc : List Recent.RItem),
      acc.length < max limit 1 →
      (Recent.recentLoop env limit gs acc).length ≤ max limit 1 + 1 := by
  have hlm : limit ≤ max limit 1 := le_max_left _ _
  intro gs
  induction gs with
  | nil =>
    intro acc hacc
    simp only [Recent.recentLoop]
    omega
  | cons g gs ih =>
    intro acc hacc
    simp only [Recent.recentLoop]
    cases hct : Recent.check_folder_type env g with
    | noneRes =>
      simp only [hct]
      exact ih acc hacc
    | one x =>
      simp only [hct]
      split
      · split
        · omega
        · exact ih acc hacc
      · split
        · next hstop =>
          simp only [List.length_append, List.length_cons, List.length_nil]
          omega
        · next hgo =>
          refine ih _ ?_
          simp only [List.length_append, List.length_cons, List.length_nil] at hgo ⊢
          omega
    | many xs =>
      have hxs := check_folder_type_many_len env g xs hct
      simp only [hct]
      split
      · exact ih acc hacc
      · split
        · next hstop =>
          simp only [List.length_append]
          omega
        · next hgo =>
          refine ih _ ?_
          simp only [List.length_append] at hgo ⊢
          omega

/-- C2 counterexample: with a one-track store and limit 0, get_recent_items
returns one item, because the limit check only runs after a group has
contributed, so the claimed length bound and the empty-at-zero behaviour
both fail. -/
theorem C2_counterexample :
    ¬ ((Recent.get_recent_items envOneTrack 0).length ≤ 0) := by decide

/-- C2 amended: get_recent_items returns at most max limit 1 + 1 items (a
group appended at the boundary can carry the output past the limit by one,
and limit 0 still admits the first contributing group), and an empty track
collection yields the empty list without failing. -/
theorem C2_amended_bound (env : Recent.Env) (limit : Nat) :
    (Recent.get_recent_items env limit).length ≤ max limit 1 + 1 ∧
    (env.tracks = [] → Recent.get_recent_items env limit = []) := by
  constructor
  · refine recentLoop_length_le env limit _ [] ?_
    have : (0 : Nat) < 1 := Nat.one_pos
    simp only [List.length_nil]
    exact lt_max_iff.mpr (Or.inr this)
  · intro h
    unfold Recent.get_recent_items
    rw [h]
    rfl

/-- C2 amended witness: the empty store at the default limit is within the
bound and returns the empty list. -/
theorem C2_amended_witness :
    (Recent.get_recent_items envEmptyTracks 7).length ≤ max 7 1 + 1 ∧
    Recent.get_recent_items envEmptyTracks 7 = [] := by
  have h := C2_amended_bound envEmptyTracks 7
  exact ⟨h.1, h.2 rfl⟩

/-- Totality of the code point order on character lists. -/
theorem strLeB_total (a : List Char) : ∀ b, strLeB a b = true ∨ strLeB b a = true := by
  induction a with
  | nil => intro b; left; rfl
  | cons x xs ih =>
    intro b
    cases b with
    | nil => right; rfl
    | cons y ys =>
      by_cases h : x.toNat = y.toNat
      · rw [strLeB, strLeB, if_pos h, if_pos h.symm]
        exact ih ys
      · rw [strLeB, strLeB, if_neg h, if_neg (fun hh => h hh.symm)]
        rcases Nat.lt_or_ge x.toNat y.toNat with hlt | hge
        · left; exact decide_eq_true hlt
        · right; exact decide_eq_true (by omega)

/-- Transitivity of the code point order on character lists. -/
theorem strLeB_trans (a : List Char) :
    ∀ b c, strLeB a b = true → strLeB b c = true → strLeB a c = true := by
  induction a with
  | nil => intro b c _ _; rfl
  | cons x xs ih =>
    intro b c hab hbc
    cases b with
    | nil => simp [strLeB] at hab
    | cons y ys =>
      cases c with
      | nil => simp [strLeB] at hbc
      | cons z zs =>
        rw [strLeB] at hab hbc ⊢
        by_cases hxy : x.toNat = y.toNat
        · rw [if_pos hxy] at hab
          by_cases hyz : y.toNat = z.toNat
          · rw [if_pos hyz] at hbc
            rw [if_pos (hxy.trans hyz)]
            exact ih ys zs hab hbc
          · rw [if_neg hyz] at hbc
            have h2 := of_decide_eq_true hbc
            rw [if_neg (by omega)]
            exact decide_eq_true (by omega)
        · rw [if_neg hxy] at hab
          have h1 := of_decide_eq_true hab
          by_cases hyz : y.toNat = z.toNat
          · rw [if_neg (by omega)]
            exact decide_eq_true (by omega)
          · rw [if_neg hyz] at hbc
            have h2 := of_decide_eq_true hbc
            rw [if_neg (by omega)]
            exact decide_eq_true (by omega)

/-- Antisymmetry of the code point order on character lists. -/
theorem strLeB_antisymm (a : List Char) :
    ∀ b, strLeB a b = true → strLeB b a = true → a = b := by
  induction a with
  | nil =>
    intro b _ hba
    cases b with
    | nil => rfl
    | cons y ys => simp [strLeB] at hba
  | cons x xs ih =>
    intro b hab hba
    cases b with
    | nil => simp [strLeB] at hab
    | cons y ys =>
      rw [strLeB] at hab hba
      by_cases hxy : x.toNat = y.toNat
      · rw [if_pos hxy] at hab
        rw [if_pos hxy.symm] at hba
        have hx : x = y := Char.ext (UInt32.ext hxy)
        rw [hx, ih ys hab hba]
      · rw [if_neg hxy] at hab
        rw [if_neg (fun hh => hxy hh.symm)] at hba
        have h1 := of_decide_eq_true hab
        have h2 := of_decide_eq_true hba
        omega

/-- Antisymmetry lifted to strings through their character data. -/
theorem strLeB_antisymm_str (a b : String) (hab : strLeB a.data b.data = true)
    (hba : strLeB b.data a.data = true) : a = b := by
  cases a with
  | mk da =>
    cases b with
    | mk db => exact congrArg String.mk (strLeB_antisymm da db hab hba)

/-- groupRuns loses nothing: the concatenation of its runs in order is the
input list. -/
theorem groupRuns_flatten (l : List Recent.Track) :
    ((Recent.groupRuns l).map (fun p => p.2)).flatten = l := by
  induction l with
  | nil => rfl
  | cons t ts ih =>
    cases hgr : Recent.groupRuns ts with
    | nil =>
      rw [hgr] at ih
      simp only [List.map_nil, List.flatten_nil] at ih
      simp only [Recent.groupRuns, hgr]
      subst ih
      rfl
    | cons q rest =>
      obtain ⟨k, run⟩ := q
      rw [hgr] at ih
      simp only [List.map_cons, List.flatten_cons] at ih
      simp only [Recent.groupRuns, hgr]
      by_cases hf : t.folder = k
      · rw [if_pos hf]
        simp [ih]
      · rw [if_neg hf]
        simp [ih]

/-- Every run of groupRuns is nonempty and all its members carry the run's
key as their folder. -/
theorem groupRuns_runs (l : List Recent.Track) :
    ∀ p ∈ Recent.groupRuns l, p.2 ≠ [] ∧ ∀ t ∈ p.2, t.folder = p.1 := by
  induction l with
  | nil => intro p hp; cases hp
  | cons t ts ih =>
    intro p hp
    cases hgr : Recent.groupRuns ts with
    | nil =>
      simp only [Recent.groupRuns, hgr] at hp
      simp only [List.mem_singleton] at hp
      subst hp
      refine ⟨by simp, ?_⟩
      intro u hu
      simp only [List.mem_singleton] at hu
      subst hu
      rfl
    | cons q rest =>
      obtain ⟨k, run⟩ := q
      simp only [Recent.groupRuns, hgr] at hp
      split at hp
      · next hf =>
        rcases List.mem_cons.mp hp with h1 | h2
        · subst h1
          have hq := ih (k, run) (by rw [hgr]; exact List.mem_cons_self _ _)
          refine ⟨by simp, ?_⟩
          intro u hu
          rcases List.mem_cons.mp hu with rfl | hu2
          · exact hf
          · exact hq.2 u hu2
        · exact ih p (by rw [hgr]; exact List.mem_cons_of_mem _ h2)
      · next hf =>
        rcases List.mem_cons.mp hp with h1 | h2
        · subst h1
          refine ⟨by simp, ?_⟩
          intro u hu
          simp only [List.mem_singleton] at hu
          subst hu
          rfl
        · exact ih p (by rw [hgr]; exact h2)

/-- On a folder-sorted list the runs of groupRuns carry pairwise distinct
keys: a later run of the same folder would contradict antisymmetry of the
sort order. -/
theorem groupRuns_keys_nodup (l : List Recent.Track)
    (hs : l.Pairwise Recent.folderLe) :
    ((Recent.groupRuns l).map (fun p => p.1)).Nodup := by
  induction l with
  | nil => simp [Recent.groupRuns]
  | cons t ts ih =>
    have hs2 := List.pairwise_cons.mp hs
    cases hgr : Recent.groupRuns ts with
    | nil => simp [Recent.groupRuns, hgr]
    | cons q rest =>
      obtain ⟨k, run⟩ := q
      have ihkeys := ih hs2.2
      rw [hgr] at ihkeys
      simp only [Recent.groupRuns, hgr]
      by_cases hf : t.folder = k
      · rw [if_pos hf]
        exact ihkeys
      · rw [if_neg hf]
        simp only [List.map_cons, List.nodup_cons] at ihkeys ⊢
        refine ⟨?_, ihkeys⟩
        intro hmem
        rcases List.mem_cons.mp hmem with heq | hmem2
        · exact hf heq
        · obtain ⟨p, hpmem, hpfst⟩ := List.mem_map.mp hmem2
          have hpruns := groupRuns_runs ts p
            (by rw [hgr]; exact List.mem_cons_of_mem _ hpmem)
          obtain ⟨u, hup⟩ := List.exists_mem_of_ne_nil p.2 hpruns.1
          have huf : u.folder = t.folder := by rw [hpruns.2 u hup, hpfst]
          have hu_flat : u ∈ (rest.map (fun q => q.2)).flatten :=
            List.mem_flatten.mpr ⟨p.2, List.mem_map_of_mem _ hpmem, hup⟩
          have hkruns := groupRuns_runs ts (k, run)
            (by rw [hgr]; exact List.mem_cons_self _ _)
          obtain ⟨w, hw⟩ := List.exists_mem_of_ne_nil run hkruns.1
          have hwf : w.folder = k := hkruns.2 w hw
          have hts : run ++ (rest.map (fun q => q.2)).flatten = ts := by
            have hfl := groupRuns_flatten ts
            rw [hgr] at hfl
            simpa using hfl
          have hpw : List.Pairwise Recent.folderLe
              (run ++ (rest.map (fun q => q.2)).flatten) := by
            rw [hts]; exact hs2.2
          have hwu : Recent.folderLe w u :=
            (List.pairwise_append.mp hpw).2.2 w hw u hu_flat
          have htw : Recent.folderLe t w :=
            hs2.1 w (by rw [← hts]; exact List.mem_append_left _ hw)
          unfold Recent.folderLe at hwu htw
          rw [hwf] at htw
          rw [hwf, huf] at hwu
          exact hf (strLeB_antisymm_str t.folder k htw hwu)

/-- Sorting each run does not change the flattened content up to
permutation. -/
theorem flatten_insertionSort_perm (rs : List (String × List Recent.Track)) :
    ((rs.map (fun p => List.insertionSort Recent.lastModGe p.2)).flatten).Perm
      ((rs.map (fun p => p.2)).flatten) := by
  induction rs with
  | nil => exact List.Perm.refl _
  | cons p rest ih =>
    simp only [List.map_cons, List.flatten_cons]
    exact (List.perm_insertionSort _ _).append ih

/-- C5: group_track_by_folders partitions the input by folder path (every
group is nonempty and homogeneous in its folder, the groups jointly
exhaust the input, and no folder names two groups); each group's tracks
are sorted by last-modified descending and its time field is the maximum
last-modified timestamp among them; the group list comes back sorted by
time descending. -/
theorem C5_grouper (tracks : List Recent.Track) :
    (∀ g ∈ Recent.group_track_by_folders tracks,
        g.tracks ≠ [] ∧
        (∀ t ∈ g.tracks, t.folder = g.folder) ∧
        g.tracks.Pairwise Recent.lastModGe ∧
        (∀ t ∈ g.tracks, t.last_mod ≤ g.time) ∧
        g.time ∈ g.tracks.map (fun t => t.last_mod)) ∧
    ((Recent.group_track_by_folders tracks).map (fun g => g.tracks)).flatten.Perm
      tracks ∧
    ((Recent.group_track_by_folders tracks).map (fun g => g.folder)).Nodup ∧
    (Recent.group_track_by_folders tracks).Pairwise Recent.timeGe := by
  haveI : IsTotal Recent.Track Recent.folderLe := ⟨fun a b => strLeB_total _ _⟩
  haveI : IsTrans Recent.Track Recent.folderLe :=
    ⟨fun a b c => strLeB_trans _ _ _⟩
  haveI : IsTotal Recent.Track Recent.lastModGe :=
    ⟨fun a b => Int.le_total b.last_mod a.last_mod⟩
  haveI : IsTrans Recent.Track Recent.lastModGe :=
    ⟨fun a b c hab hbc => le_trans hbc hab⟩
  haveI : IsTotal Recent.Group Recent.timeGe :=
    ⟨fun a b => Int.le_total b.time a.time⟩
  haveI : IsTrans Recent.Group Recent.timeGe :=
    ⟨fun a b c hab hbc => le_trans hbc hab⟩
  set s1 := List.insertionSort Recent.folderLe tracks with hs1def
  have hs1sorted : s1.Pairwise Recent.folderLe := List.sorted_insertionSort _ _
  have hs1perm : s1.Perm tracks := List.perm_insertionSort _ _
  set groups0 := (Recent.groupRuns s1).map (fun p => Recent.mkGroup p.1 p.2)
    with hg0
  have hresperm : (Recent.group_track_by_folders tracks).Perm groups0 :=
    List.perm_insertionSort _ _
  refine ⟨?_, ?_, ?_, ?_⟩
  · intro g hgmem
    have hg0mem : g ∈ groups0 := hresperm.mem_iff.mp hgmem
    obtain ⟨p, hpmem, rfl⟩ := List.mem_map.mp hg0mem
    obtain ⟨k, ts⟩ := p
    have hruns := groupRuns_runs s1 (k, ts) hpmem
    have hperm2 : (List.insertionSort Recent.lastModGe ts).Perm ts :=
      List.perm_insertionSort _ _
    have hsorted2 : (List.insertionSort Recent.lastModGe ts).Pairwise
        Recent.lastModGe := List.sorted_insertionSort _ _
    have hne : List.insertionSort Recent.lastModGe ts ≠ [] := by
      intro hnil
      have hlen := hperm2.length_eq
      rw [hnil] at hlen
      exact hruns.1 (List.length_eq_zero.mp hlen.symm)
    simp only [Recent.mkGroup]
    cases hsts : List.insertionSort Recent.lastModGe ts with
    | nil => exact absurd hsts hne
    | cons h0 rest =>
      rw [hsts] at hperm2 hsorted2
      have hcons := List.pairwise_cons.mp hsorted2
      refine ⟨by simp, ?_, hsorted2, ?_, ?_⟩
      · intro t htmem
        exact hruns.2 t (hperm2.mem_iff.mp htmem)
      · intro t htmem
        simp only [Recent.runTime]
        rcases List.mem_cons.mp htmem with rfl | htmem2
        · exact le_refl _
        · exact hcons.1 t htmem2
      · simp [Recent.runTime]
  · have e2 : groups0.map (fun g => g.tracks)
        = (Recent.groupRuns s1).map
            (fun p => List.insertionSort Recent.lastModGe p.2) := by
      rw [hg0, List.map_map]
      rfl
    have step1 : ((Recent.group_track_by_folders tracks).map
        (fun g => g.tracks)).flatten.Perm
        ((groups0.map (fun g => g.tracks)).flatten) := (hresperm.map _).flatten
    have step2 : ((groups0.map (fun g => g.tracks)).flatten).Perm
        (((Recent.groupRuns s1).map (fun p => p.2)).flatten) := by
      rw [e2]
      exact flatten_insertionSort_perm _
    have step3 : (((Recent.groupRuns s1).map (fun p => p.2)).flatten).Perm tracks := by
      rw [groupRuns_flatten s1]
      exact hs1perm
    exact (step1.trans step2).trans step3
  · have hkeys : (groups0.map (fun g => g.folder)).Nodup := by
      have h1 : groups0.map (fun g => g.folder)
          = (Recent.groupRuns s1).map (fun p => p.1) := by
        rw [hg0, List.map_map]
        rfl
      rw [h1]
      exact groupRuns_keys_nodup s1 hs1sorted
    exact ((hresperm.map (fun g => g.folder)).symm).nodup hkeys
  · exact List.sorted_insertionSort _ _

/-- C5 witness: on the two-folder fixture the partition, key-uniqueness
and descending-time properties all hold. -/
theorem C5_witness :
    ((Recent.group_track_by_folders twoTracks).map (fun g => g.tracks)).flatten.Perm
      twoTracks ∧
    ((Recent.group_track_by_folders twoTracks).map (fun g => g.folder)).Nodup ∧
    (Recent.group_track_by_folders twoTracks).Pairwise Recent.timeGe :=
  ⟨(C5_grouper twoTracks).2.1, (C5_grouper twoTracks).2.2.1,
   (C5_grouper twoTracks).2.2.2⟩

end SwingMusic
